import Mathlib

/-!
Verification of the MCP gateway core of the shoalsoft-pants-mcp-plugin
repository (src/python/shoalsoft/pants_mcp_plugin/mcp_server.py).

The gateway sits between an MCP client and the Pants build engine.  Pure
gateway logic (tool synthesis, goal-map construction, request validation,
resource listing and reading) is embedded directly; the host engine's
operations (spec resolution, target fetch, goal-rule execution,
bootstrap-environment lookup) are external collaborators and appear as
function parameters of the embedded operations.
-/

namespace PantsMcp

/-- The fixed resource-URI scheme, `_PANTS_TARGET_ADDR_SCHEME` in the source. -/
def PANTS_TARGET_ADDR_SCHEME : String := "pants-target"

/-- Help metadata of one goal as returned by the host engine's help
introspection (`pants.help.help_info_extracter.GoalHelpInfo`, the fields the
gateway consumes). -/
structure GoalHelpInfo where
  name : String
  description : String
  is_implemented : Bool
deriving DecidableEq

/-- A property entry of a JSON schema object, as the literal dicts in
`_setup_tools` build it. -/
structure PropSchema where
  type : String
  description : String
deriving DecidableEq, Inhabited

/-- A JSON schema object as the literal dicts in `_setup_tools` build it:
a `type`, a `required` list, and named properties in insertion order. -/
structure Schema where
  type : String
  required : List String
  properties : List (String × PropSchema)
deriving DecidableEq, Inhabited

/-- An MCP tool descriptor (`mcp.types.Tool`, the fields `_setup_tools`
sets). -/
structure Tool where
  name : String
  title : String
  description : String
  inputSchema : Schema
  outputSchema : Schema
deriving DecidableEq, Inhabited, Inhabited, Inhabited

/-- Python `dict` assignment `m[k] = v` on a dict modelled as an association
list in insertion order: an existing key keeps its position and gets the new
value, a new key is appended. -/
def dict_insert {β : Type} (m : List (String × β)) (k : String) (v : β) :
    List (String × β) :=
  if k ∈ m.map Prod.fst then
    m.map (fun p => if p.1 = k then (k, v) else p)
  else m ++ [(k, v)]

/-- Python `dict.get` / `dict[k]` lookup on the association-list model. -/
def lookup_assoc {β : Type} (m : List (String × β)) (k : String) : Option β :=
  match m with
  | [] => none
  | p :: rest => if p.1 = k then some p.2 else lookup_assoc rest k

/-- `_determine_available_goals`: keep exactly the goals the help system flags
as implemented, keyed by goal name.  The input list stands for
`all_help_info.name_to_goal_info.values()` in iteration order. -/
def determine_available_goals (infos : List GoalHelpInfo) :
    List (String × GoalHelpInfo) :=
  infos.foldl
    (fun m goal_info =>
      if goal_info.is_implemented then dict_insert m goal_info.name goal_info
      else m)
    []

/-- The tool `_setup_tools` builds for one catalog entry (a goal name and
its help info), with the literal input and output schemas of the source. -/
def mk_tool (p : String × GoalHelpInfo) : Tool :=
  { name := "pants-goal-" ++ p.1
    title := "Run the Pants `" ++ p.1 ++ "` goal."
    description := p.2.description
    inputSchema :=
      { type := "object"
        required := ["pants_target_address"]
        properties :=
          [("pants_target_address",
            { type := "string"
              description := "The address of the Pants target to invoke with the `" ++ p.1 ++ "` goal " })] }
    outputSchema :=
      { type := "object"
        required := ["exit_code", "stdout", "stderr"]
        properties :=
          [("exit_code",
            { type := "integer"
              description := "The exit code returned by the Pants `" ++ p.1 ++ "` goal" }),
           ("stdout",
            { type := "string"
              description := "Standard output captured from running the Pants `" ++ p.1 ++ "` goal" }),
           ("stderr",
            { type := "string"
              description := "Standard error output captured from running the Pants `" ++ p.1 ++ "` goal" })] } }

/-- `_setup_tools`: one tool per catalog entry, in catalog iteration order. -/
def setup_tools (goal_name_to_goal_info : List (String × GoalHelpInfo)) :
    List Tool :=
  goal_name_to_goal_info.map mk_tool

/-- A goal-shaped rule output type: its `name` and its subsystem's
`deprecated_options_scope` are all `_setup_goal_map_from_rules` reads. -/
structure GoalType where
  name : String
  deprecated_options_scope : Option String
deriving DecidableEq

/-- A registered rule as the goal-map scan sees it: `none` stands for a rule
with no `output_type` attribute or whose output type is not a `Goal`
subclass (both are skipped by the scan). -/
structure Rule where
  output_type : Option GoalType
deriving DecidableEq

/-- The names one goal type claims in the map: its primary name and, when the
deprecated scope is truthy in Python (present and non-empty), that alias. -/
def claimed_goal_names (g : GoalType) : List String :=
  match g.deprecated_options_scope with
  | some d => if d = "" then [g.name] else [g.name, d]
  | none => [g.name]

/-- The inner loop of `_setup_goal_map_from_rules`: claim each name in turn,
raising on a name already present in the map. -/
def insert_claims (g : GoalType) :
    List String → List (String × GoalType) → Except String (List (String × GoalType))
  | [], m => Except.ok m
  | n :: rest, m =>
    if n ∈ m.map Prod.fst then
      Except.error ("could not map goal `" ++ n ++ "`: already claimed")
    else insert_claims g rest (m ++ [(n, g)])

/-- One rule's step of the scan. -/
def setup_goal_map_aux :
    List Rule → List (String × GoalType) → Except String (List (String × GoalType))
  | [], m => Except.ok m
  | r :: rest, m =>
    match r.output_type with
    | none => setup_goal_map_aux rest m
    | some g =>
      match insert_claims g (claimed_goal_names g) m with
      | Except.error e => Except.error e
      | Except.ok m2 => setup_goal_map_aux rest m2

/-- `_setup_goal_map_from_rules`: scan every registered rule once, building
`goal name → goal type`; a duplicate claim raises (startup abort). -/
def setup_goal_map_from_rules (rules : List Rule) :
    Except String (List (String × GoalType)) :=
  setup_goal_map_aux rules []

/-- All names claimed across the scan, in scan order. -/
def all_claimed_names : List Rule → List String
  | [] => []
  | r :: rest =>
    (match r.output_type with
     | none => []
     | some g => claimed_goal_names g) ++ all_claimed_names rest

/-- All (name, goal type) pairs the scan inserts, in scan order. -/
def all_claimed_pairs : List Rule → List (String × GoalType)
  | [] => []
  | r :: rest =>
    (match r.output_type with
     | none => []
     | some g => (claimed_goal_names g).map (fun n => (n, g))) ++ all_claimed_pairs rest

/-- Whether an `Except` is an error. -/
def except_is_error {ε α : Type} : Except ε α → Bool
  | Except.error _ => true
  | Except.ok _ => false

/-- Python `name.split("-")` on the character list of a string: split at every
occurrence of the separator, keeping empty segments, as `str.split` with a
non-empty separator does. -/
def split_on_char (c : Char) : List Char → List (List Char)
  | [] => [[]]
  | x :: xs =>
    let r := split_on_char c xs
    if x = c then [] :: r else (x :: r.headI) :: r.tail

/-- `name.split("-")` as a list of strings. -/
def split_py (s : String) : List String :=
  (split_on_char '-' s.data).map String.mk

/-- The characters of a list before its first occurrence of `c`. -/
def take_until_char (c : Char) : List Char → List Char
  | [] => []
  | x :: xs => if x = c then [] else x :: take_until_char c xs

/-- `name.split("-")[2]`, the goal-name extraction of `call_tool`.  For every
synthesized tool name (`pants-goal-` followed by a goal name) the split has at
least three segments, so the default of `getD` is never reached there. -/
def extract_goal_name (name : String) : String :=
  (split_py name).getD 2 ""

/-- A Python value arriving in the `arguments` object of a tool call:
a string, `None`, or a value of any other type. -/
inductive PyValue : Type where
  | pyStr (s : String) : PyValue
  | pyNone : PyValue
  | pyOther : PyValue
deriving DecidableEq

/-- The parsed specs the host engine's `SpecsParser` returns for the
single-element spec list `[pants_target_address]`; opaque to the gateway. -/
structure Specs where
  raw : String
deriving DecidableEq

/-- What one goal-rule execution does, from the gateway's point of view: the
exit code it returns, and the text it writes to the stdout and stderr sinks
of the console it was handed. -/
structure ExecEffect where
  exit_code : Int
  out : String
  err : String
deriving DecidableEq

/-- The structured result dict a tool call returns. -/
structure ToolResult where
  exit_code : Int
  stdout : String
  stderr : String
deriving DecidableEq

/-- `run_goal`: look the goal up in the dispatch table (unknown goal raises),
parse the address into specs, create fresh empty stdout/stderr sinks and a
call-scoped console over them, run the goal rule, and return exit code and
the sinks' final contents verbatim.  `parse_specs` stands for
`SpecsParser(root_dir=build_root).parse_specs([addr], ...)` and
`run_goal_rule g specs` for `session.run_goal_rule(g, Params(specs, console,
workspace, env_name))` together with what that execution writes through the
console's sinks. -/
def run_goal (goal_map : List (String × GoalType)) (parse_specs : String → Specs)
    (run_goal_rule : GoalType → Specs → ExecEffect)
    (goal_name pants_target_address : String) : Except String ToolResult :=
  match lookup_assoc goal_map goal_name with
  | none => Except.error ("Unknown goal: " ++ goal_name)
  | some goal_product =>
    let specs := parse_specs pants_target_address
    let stdout_sink : String := ""
    let stderr_sink : String := ""
    let eff := run_goal_rule goal_product specs
    Except.ok
      { exit_code := eff.exit_code
        stdout := stdout_sink ++ eff.out
        stderr := stderr_sink ++ eff.err }

/-- The validation phase of `call_tool`, everything before `run_goal` is
awaited: unknown tool names and missing or non-string `pants_target_address`
arguments are rejected; on success the extracted goal name and the address
are handed on. -/
def validate_tool_call (tools : List Tool) (name : String)
    (arguments : List (String × PyValue)) : Except String (String × String) :=
  if name ∈ tools.map Tool.name then
    match lookup_assoc arguments "pants_target_address" with
    | none =>
      Except.error ("Parameter `pants_target_address` is required for tool `" ++ name ++ "`.")
    | some (PyValue.pyStr s) => Except.ok (extract_goal_name name, s)
    | some _ =>
      Except.error ("Expected parameter `pants_target_address` for tool `" ++ name ++ "` to be a `str`.")
  else Except.error ("Unknown tool: " ++ name)

/-- `call_tool`: validate, then run the goal. -/
def call_tool (tools : List Tool) (goal_map : List (String × GoalType))
    (parse_specs : String → Specs) (run_goal_rule : GoalType → Specs → ExecEffect)
    (name : String) (arguments : List (String × PyValue)) : Except String ToolResult :=
  match validate_tool_call tools name arguments with
  | Except.error e => Except.error e
  | Except.ok p => run_goal goal_map parse_specs run_goal_rule p.1 p.2

/-- A build-graph address: its string form `str(address)` and its
`target_name`. -/
structure Address where
  spec : String
  target_name : String
deriving DecidableEq

/-- A build target: its `alias` (target type name, `alias_` here since
`alias` is a Lean keyword) and its address. -/
structure Target where
  alias_ : String
  address : Address
deriving DecidableEq

/-- A parsed resource URI as pydantic's `AnyUrl` presents it to the handlers:
a scheme and an optional path. -/
structure Url where
  scheme : String
  path : Option String
deriving DecidableEq

/-- An MCP resource descriptor (`mcp.types.Resource`, the fields
`get_pants_target_resources` sets). -/
structure Resource where
  name : String
  uri : Url
  mimeType : String
  description : String
deriving DecidableEq

/-- One content entry of a read-resource response; the serialized JSON object
is kept as its ordered field list. -/
structure ReadResourceContents where
  content : List (String × String)
  mime_type : String
deriving DecidableEq

/-- Python `spec.startswith("//")`: the first two characters are slashes. -/
def starts_with_slashslash (s : String) : Bool :=
  match s.data with
  | '/' :: '/' :: _ => true
  | _ => false

/-- `abs_spec` in `get_pants_target_resources`: make the spec absolute so its
URL form is parsed correctly. -/
def abs_spec (spec : String) : String :=
  if starts_with_slashslash spec then spec else "//" ++ spec

/-- `get_pants_target_resources`: one resource per known target.  Building
`AnyUrl(f"{scheme}://{abs_spec(str(addr))}")` and later reading `.scheme` and
`.path` off it is modelled by constructing the parsed form directly: for a
path beginning with `//` the authority of the URI string is empty and the
parsed path is exactly `abs_spec(str(addr))`, which is the stated purpose of
`abs_spec` in the source. -/
def get_pants_target_resources (targets : List Target) : List Resource :=
  targets.map (fun tgt =>
    { name := tgt.address.target_name
      uri := { scheme := PANTS_TARGET_ADDR_SCHEME, path := some (abs_spec tgt.address.spec) }
      mimeType := "text/json"
      description := "A JSON document representing the metadata of this Pants target" })

/-- The string form of a URL, for the unknown-resource error message. -/
def url_to_string (url : Url) : String :=
  url.scheme ++ "://" ++ url.path.getD ""

/-- `read_pants_target_resource`: resolve the URI path to addresses via the
host engine (`resolve`, standing for `resolve_specs_to_addresses`); zero
matches and multiple matches are rejected; a unique match is fetched
(`fetch`, standing for the `WrappedTarget` product request) and projected to
its `alias` and `address` fields as one JSON content entry. -/
def read_pants_target_resource (resolve : String → List Address)
    (fetch : Address → Target) (url : Url) : Except String (List ReadResourceContents) :=
  match url.path with
  | none => Except.error "MCP URL must not be empty."
  | some spec =>
    match resolve spec with
    | [] => Except.error ("No Pants target found for `" ++ spec ++ "`")
    | [addr] =>
      let target := fetch addr
      Except.ok
        [{ content := [("alias", target.alias_), ("address", target.address.spec)]
           mime_type := "text/json" }]
    | _ => Except.error ("Multiple Pants targets matched spec `" ++ spec ++ "`.")

/-- `read_resource`: dispatch on the URI scheme; only the fixed target scheme
is known. -/
def read_resource (resolve : String → List Address) (fetch : Address → Target)
    (url : Url) : Except String (List ReadResourceContents) :=
  if url.scheme = PANTS_TARGET_ADDR_SCHEME then
    read_pants_target_resource resolve fetch url
  else Except.error ("Unknown resource: " ++ url_to_string url)


theorem str_data_append (s t : String) : (s ++ t).data = s.data ++ t.data := rfl

theorem str_empty_append (s : String) : "" ++ s = s := by cases s; rfl

theorem str_append_left_cancel {s a b : String} (h : s ++ a = s ++ b) : a = b := by
  have hd : s.data ++ a.data = s.data ++ b.data := by
    have h2 := congrArg String.data h
    simpa [str_data_append] using h2
  have hab : a.data = b.data := List.append_cancel_left hd
  cases a; cases b
  exact congrArg String.mk hab

theorem split_on_char_ne_nil (c : Char) (l : List Char) : split_on_char c l ≠ [] := by
  cases l with
  | nil => simp [split_on_char]
  | cons x xs => simp only [split_on_char]; split <;> simp

theorem split_on_char_headI (c : Char) (l : List Char) :
    (split_on_char c l).headI = take_until_char c l := by
  induction l with
  | nil => rfl
  | cons x xs ih =>
    simp only [split_on_char, take_until_char]
    by_cases h : x = c
    · simp [h]
    · simp [h, ih]

theorem take_until_char_ne {c : Char} {l : List Char} (h : c ∈ l) :
    take_until_char c l ≠ l := by
  induction l with
  | nil => cases h
  | cons x xs ih =>
    simp only [take_until_char]
    by_cases hx : x = c
    · simp [hx]
    · have hmem : c ∈ xs := by
        rcases List.mem_cons.mp h with h1 | h2
        · exact absurd h1.symm hx
        · exact h2
      rw [if_neg hx]
      intro heq
      injection heq with _ h2
      exact ih hmem h2

theorem take_until_char_split {c : Char} {l : List Char} (h : c ∈ l) :
    ∃ rest, l = take_until_char c l ++ c :: rest := by
  induction l with
  | nil => cases h
  | cons x xs ih =>
    by_cases hx : x = c
    · exact ⟨xs, by simp [take_until_char, hx]⟩
    · have hmem : c ∈ xs := by
        rcases List.mem_cons.mp h with h1 | h2
        · exact absurd h1.symm hx
        · exact h2
      obtain ⟨r, hr⟩ := ih hmem
      refine ⟨r, ?_⟩
      simp only [take_until_char, if_neg hx, List.cons_append]
      rw [← hr]

theorem split_prefix_append (c : Char) (pre l : List Char) (h : c ∉ pre) :
    split_on_char c (pre ++ c :: l) = pre :: split_on_char c l := by
  induction pre with
  | nil => simp [split_on_char]
  | cons x xs ih =>
    have hx : x ≠ c := by intro e; exact h (by simp [e])
    have hxs : c ∉ xs := fun m => h (List.mem_cons_of_mem _ m)
    simp only [List.cons_append, split_on_char]
    simp [hx, ih hxs]

theorem split_py_pants_goal (g : String) :
    split_py ("pants-goal-" ++ g) =
      "pants" :: "goal" :: (split_on_char '-' g.data).map String.mk := by
  unfold split_py
  have hdata : ("pants-goal-" ++ g).data =
      "pants".data ++ '-' :: ("goal".data ++ '-' :: g.data) := rfl
  rw [hdata, split_prefix_append _ _ _ (by decide), split_prefix_append _ _ _ (by decide)]
  rfl

theorem extract_goal_name_pants_goal (g : String) :
    extract_goal_name ("pants-goal-" ++ g) = String.mk (take_until_char '-' g.data) := by
  unfold extract_goal_name
  rw [split_py_pants_goal,
    show take_until_char '-' g.data = (split_on_char '-' g.data).headI from
      (split_on_char_headI _ _).symm]
  obtain ⟨h, t, hht⟩ : ∃ h t, split_on_char '-' g.data = h :: t := by
    cases e : split_on_char '-' g.data with
    | nil => exact absurd e (split_on_char_ne_nil _ _)
    | cons h t => exact ⟨h, t, rfl⟩
  rw [hht]
  rfl


theorem str_mk_ne_of_data_ne {l : List Char} {s : String} (h : l ≠ s.data) :
    String.mk l ≠ s := by
  intro e
  exact h (congrArg String.data e)

/-- A trivial stand-in for the host engine's spec parser, for concrete
instantiations. -/
def id_parse : String → Specs := fun s => ⟨s⟩

/-- A trivial stand-in for goal-rule execution, for concrete instantiations. -/
def null_exec : GoalType → Specs → ExecEffect := fun _ _ => ⟨0, "", ""⟩

/-- C3: the router extracts the goal name as the third hyphen-delimited
segment of the tool name while the synthesizer names tools
`pants-goal-<goalName>`; for a goal name containing a hyphen the extracted
name is the part of the goal name before its first hyphen (a strict prefix),
differs from the goal name, and calling that goal's listed tool yields
`Unknown goal: <prefix>` (and runs no goal) whenever the prefix is not itself
a registered goal name. -/
theorem claim_c3 (g : String) (hg : '-' ∈ g.data) :
    (extract_goal_name ("pants-goal-" ++ g) = String.mk (take_until_char '-' g.data) ∧
     extract_goal_name ("pants-goal-" ++ g) ≠ g ∧
     (∃ rest, g.data = take_until_char '-' g.data ++ '-' :: rest)) ∧
    ∀ (tools : List Tool) (goal_map : List (String × GoalType))
      (parse_specs : String → Specs) (run_goal_rule : GoalType → Specs → ExecEffect)
      (arguments : List (String × PyValue)) (addr : String),
      ("pants-goal-" ++ g) ∈ tools.map Tool.name →
      lookup_assoc arguments "pants_target_address" = some (PyValue.pyStr addr) →
      lookup_assoc goal_map (String.mk (take_until_char '-' g.data)) = none →
      call_tool tools goal_map parse_specs run_goal_rule ("pants-goal-" ++ g) arguments =
        Except.error ("Unknown goal: " ++ String.mk (take_until_char '-' g.data)) := by
  refine ⟨⟨extract_goal_name_pants_goal g, ?_, ?_⟩, ?_⟩
  · rw [extract_goal_name_pants_goal]
    exact str_mk_ne_of_data_ne (take_until_char_ne hg)
  · exact take_until_char_split hg
  · intro tools goal_map parse_specs run_goal_rule arguments addr htool harg hmap
    unfold call_tool validate_tool_call
    rw [if_pos htool, harg, extract_goal_name_pants_goal]
    simp only [run_goal, hmap]

/-- Witness for C3 at the real Pants goal name `update-build-files`. -/
theorem claim_c3_witness :
    extract_goal_name ("pants-goal-" ++ "update-build-files") =
      String.mk (take_until_char '-' "update-build-files".data) ∧
    call_tool
        [{ name := "pants-goal-update-build-files", title := "t", description := "d"
           inputSchema := ⟨"object", [], []⟩, outputSchema := ⟨"object", [], []⟩ }]
        [] id_parse null_exec ("pants-goal-" ++ "update-build-files")
        [("pants_target_address", PyValue.pyStr "//x")] =
      Except.error ("Unknown goal: " ++ String.mk (take_until_char '-' "update-build-files".data)) :=
  ⟨(claim_c3 "update-build-files" (by decide)).1.1,
   (claim_c3 "update-build-files" (by decide)).2
     [{ name := "pants-goal-update-build-files", title := "t", description := "d"
        inputSchema := ⟨"object", [], []⟩, outputSchema := ⟨"object", [], []⟩ }]
     [] id_parse null_exec [("pants_target_address", PyValue.pyStr "//x")] "//x"
     (by decide) (by decide) (by decide)⟩


/-- C2: validation precedes execution.  An unknown tool name yields
`Unknown tool: <name>` (for every engine behaviour, so no host-engine call is
involved in the outcome); a known tool with the required argument missing, or
present but not a string, yields a parameter-validation error naming the
tool, again independently of the engine parameters, so before any goal
execution. -/
theorem claim_c2 (tools : List Tool) (goal_map : List (String × GoalType))
    (parse_specs : String → Specs) (run_goal_rule : GoalType → Specs → ExecEffect)
    (name : String) (arguments : List (String × PyValue)) :
    (name ∉ tools.map Tool.name →
      call_tool tools goal_map parse_specs run_goal_rule name arguments =
        Except.error ("Unknown tool: " ++ name)) ∧
    (name ∈ tools.map Tool.name →
      (lookup_assoc arguments "pants_target_address" = none →
        call_tool tools goal_map parse_specs run_goal_rule name arguments =
          Except.error ("Parameter `pants_target_address` is required for tool `" ++ name ++ "`.")) ∧
      (∀ v, lookup_assoc arguments "pants_target_address" = some v →
        (∀ s, v ≠ PyValue.pyStr s) →
        call_tool tools goal_map parse_specs run_goal_rule name arguments =
          Except.error ("Expected parameter `pants_target_address` for tool `" ++ name ++ "` to be a `str`."))) := by
  refine ⟨?_, fun htool => ⟨?_, ?_⟩⟩
  · intro h
    unfold call_tool validate_tool_call
    rw [if_neg h]
  · intro hnone
    unfold call_tool validate_tool_call
    rw [if_pos htool, hnone]
  · intro v hv hns
    unfold call_tool validate_tool_call
    rw [if_pos htool, hv]
    cases v with
    | pyStr s => exact absurd rfl (hns s)
    | pyNone => rfl
    | pyOther => rfl

/-- Witness for C2: an unknown tool, a known tool with the argument missing,
and a known tool with a `None` argument. -/
theorem claim_c2_witness :
    call_tool [] [] id_parse null_exec "nope" [] =
      Except.error ("Unknown tool: " ++ "nope") ∧
    call_tool
        [{ name := "pants-goal-test", title := "t", description := "d"
           inputSchema := ⟨"object", [], []⟩, outputSchema := ⟨"object", [], []⟩ }]
        [] id_parse null_exec "pants-goal-test" [] =
      Except.error ("Parameter `pants_target_address` is required for tool `" ++ "pants-goal-test" ++ "`.") ∧
    call_tool
        [{ name := "pants-goal-test", title := "t", description := "d"
           inputSchema := ⟨"object", [], []⟩, outputSchema := ⟨"object", [], []⟩ }]
        [] id_parse null_exec "pants-goal-test" [("pants_target_address", PyValue.pyNone)] =
      Except.error ("Expected parameter `pants_target_address` for tool `" ++ "pants-goal-test" ++ "` to be a `str`.") :=
  ⟨(claim_c2 [] [] id_parse null_exec "nope" []).1 (by decide),
   ((claim_c2 [{ name := "pants-goal-test", title := "t", description := "d"
                 inputSchema := ⟨"object", [], []⟩, outputSchema := ⟨"object", [], []⟩ }]
       [] id_parse null_exec "pants-goal-test" []).2 (by decide)).1 rfl,
   ((claim_c2 [{ name := "pants-goal-test", title := "t", description := "d"
                 inputSchema := ⟨"object", [], []⟩, outputSchema := ⟨"object", [], []⟩ }]
       [] id_parse null_exec "pants-goal-test"
       [("pants_target_address", PyValue.pyNone)]).2 (by decide)).2
     PyValue.pyNone rfl (fun s h => PyValue.noConfusion h)⟩

/-- C9: when the goal is registered, `run_goal` returns `Except.ok` with the
execution's exit code and captured outputs verbatim, whatever the exit code
is — a non-zero code is never turned into an error. -/
theorem claim_c9 (goal_map : List (String × GoalType)) (parse_specs : String → Specs)
    (run_goal_rule : GoalType → Specs → ExecEffect) (goal_name addr : String)
    (g : GoalType) (hg : lookup_assoc goal_map goal_name = some g) :
    run_goal goal_map parse_specs run_goal_rule goal_name addr =
      Except.ok
        { exit_code := (run_goal_rule g (parse_specs addr)).exit_code
          stdout := (run_goal_rule g (parse_specs addr)).out
          stderr := (run_goal_rule g (parse_specs addr)).err } := by
  simp only [run_goal, hg, str_empty_append]

/-- A stand-in execution that fails with exit code 1 and writes to stderr. -/
def fail_exec : GoalType → Specs → ExecEffect := fun _ _ => ⟨1, "", "//:t failed"⟩

/-- Witness for C9 at a goal execution with a non-zero exit code. -/
theorem claim_c9_witness :
    run_goal [("test", ⟨"test", none⟩)] id_parse fail_exec "test" "//:t" =
      Except.ok { exit_code := 1, stdout := "", stderr := "//:t failed" } := by
  have h := claim_c9 [("test", ⟨"test", none⟩)] id_parse fail_exec "test" "//:t"
    ⟨"test", none⟩ (by decide)
  simpa [fail_exec] using h

/-- C10: every invocation's stdout/stderr sinks are created inside the call
(the `io.StringIO()` locals of `run_goal`) and start empty, and the console
handed to the engine is bound to exactly those sinks; hence for two calls
with their own executions, each call's returned stdout and stderr are exactly
its own execution's writes appended to an empty sink — nothing of the other
call's output appears, and the result of either call does not mention the
other call's execution at all. -/
theorem claim_c10 (goal_map : List (String × GoalType)) (parse_specs : String → Specs)
    (run_goal_rule_1 run_goal_rule_2 : GoalType → Specs → ExecEffect)
    (name_1 name_2 addr_1 addr_2 : String) (g1 g2 : GoalType)
    (h1 : lookup_assoc goal_map name_1 = some g1)
    (h2 : lookup_assoc goal_map name_2 = some g2) :
    run_goal goal_map parse_specs run_goal_rule_1 name_1 addr_1 =
      Except.ok
        { exit_code := (run_goal_rule_1 g1 (parse_specs addr_1)).exit_code
          stdout := "" ++ (run_goal_rule_1 g1 (parse_specs addr_1)).out
          stderr := "" ++ (run_goal_rule_1 g1 (parse_specs addr_1)).err } ∧
    run_goal goal_map parse_specs run_goal_rule_2 name_2 addr_2 =
      Except.ok
        { exit_code := (run_goal_rule_2 g2 (parse_specs addr_2)).exit_code
          stdout := "" ++ (run_goal_rule_2 g2 (parse_specs addr_2)).out
          stderr := "" ++ (run_goal_rule_2 g2 (parse_specs addr_2)).err } :=
  ⟨by simp only [run_goal, h1], by simp only [run_goal, h2]⟩

/-- A stand-in execution writing distinctive output, first call. -/
def exec_a : GoalType → Specs → ExecEffect := fun _ _ => ⟨0, "out-a", "err-a"⟩

/-- A stand-in execution writing distinctive output, second call. -/
def exec_b : GoalType → Specs → ExecEffect := fun _ _ => ⟨1, "out-b", "err-b"⟩

/-- Witness for C10: two calls with different executions each capture exactly
their own output. -/
theorem claim_c10_witness :
    run_goal [("test", ⟨"test", none⟩)] id_parse exec_a "test" "//a" =
      Except.ok { exit_code := 0, stdout := "out-a", stderr := "err-a" } ∧
    run_goal [("test", ⟨"test", none⟩)] id_parse exec_b "test" "//b" =
      Except.ok { exit_code := 1, stdout := "out-b", stderr := "err-b" } := by
  have h := claim_c10 [("test", ⟨"test", none⟩)] id_parse exec_a exec_b
    "test" "test" "//a" "//b" ⟨"test", none⟩ ⟨"test", none⟩ (by decide) (by decide)
  simpa [exec_a, exec_b, str_empty_append] using h


theorem get_resources_length (targets : List Target) :
    (get_pants_target_resources targets).length = targets.length := by
  simp [get_pants_target_resources]

theorem get_resources_zip (targets : List Target) :
    ∀ p ∈ (get_pants_target_resources targets).zip targets,
      p.1 = { name := p.2.address.target_name
              uri := { scheme := PANTS_TARGET_ADDR_SCHEME
                       path := some (abs_spec p.2.address.spec) }
              mimeType := "text/json"
              description := "A JSON document representing the metadata of this Pants target" } := by
  induction targets with
  | nil => intro p hp; simp [get_pants_target_resources] at hp
  | cons t ts ih =>
    intro p hp
    simp only [get_pants_target_resources, List.map_cons, List.zip_cons_cons] at hp
    rcases List.mem_cons.mp hp with h1 | h2
    · rw [h1]
    · exact ih p h2

/-- C6: resource listing yields exactly one descriptor per known target, with
the fixed URI scheme, the path equal to the target's address string
normalized to begin with `//` (prefixed when not already absolute, unchanged
when absolute), the target's short name, and the fixed JSON mime type. -/
theorem claim_c6 (targets : List Target) :
    (get_pants_target_resources targets).length = targets.length ∧
    ∀ p ∈ (get_pants_target_resources targets).zip targets,
      p.1.name = p.2.address.target_name ∧
      p.1.uri.scheme = PANTS_TARGET_ADDR_SCHEME ∧
      p.1.uri.path = some (abs_spec p.2.address.spec) ∧
      (starts_with_slashslash p.2.address.spec = true →
        p.1.uri.path = some p.2.address.spec) ∧
      (starts_with_slashslash p.2.address.spec = false →
        p.1.uri.path = some ("//" ++ p.2.address.spec)) ∧
      p.1.mimeType = "text/json" := by
  refine ⟨get_resources_length targets, fun p hp => ?_⟩
  rw [get_resources_zip targets p hp]
  refine ⟨rfl, rfl, rfl, ?_, ?_, rfl⟩
  · intro h; simp [abs_spec, h]
  · intro h; simp [abs_spec, h]

/-- A concrete target with a non-absolute address spec, for instantiations. -/
def target_rt : Target := { alias_ := "python_sources", address := ⟨"foo:bar", "bar"⟩ }

/-- The resource descriptor the listing builds for `target_rt`. -/
def resource_rt : Resource :=
  { name := "bar"
    uri := { scheme := "pants-target", path := some "//foo:bar" }
    mimeType := "text/json"
    description := "A JSON document representing the metadata of this Pants target" }

/-- Witness for C6 at a one-target catalog whose address is not absolute. -/
theorem claim_c6_witness :
    (get_pants_target_resources [target_rt]).length = [target_rt].length ∧
    (resource_rt, target_rt).1.uri.path = some ("//" ++ (resource_rt, target_rt).2.address.spec) :=
  ⟨(claim_c6 [target_rt]).1,
   ((claim_c6 [target_rt]).2 (resource_rt, target_rt) (by decide)).2.2.2.2.1 rfl⟩

/-- C4: reading a resource rejects any URI whose scheme is not the fixed
target scheme; with the fixed scheme, a path resolving to zero addresses
fails with a no-target error, more than one address fails with a
multiple-targets error, and exactly one address returns a single JSON
content entry with exactly the `alias` and `address` fields of the fetched
target. -/
theorem claim_c4 (resolve : String → List Address) (fetch : Address → Target) (url : Url) :
    (url.scheme ≠ PANTS_TARGET_ADDR_SCHEME →
      read_resource resolve fetch url =
        Except.error ("Unknown resource: " ++ url_to_string url)) ∧
    (url.scheme = PANTS_TARGET_ADDR_SCHEME →
      ∀ spec, url.path = some spec →
        (resolve spec = [] →
          read_resource resolve fetch url =
            Except.error ("No Pants target found for `" ++ spec ++ "`")) ∧
        (2 ≤ (resolve spec).length →
          read_resource resolve fetch url =
            Except.error ("Multiple Pants targets matched spec `" ++ spec ++ "`.")) ∧
        (∀ addr, resolve spec = [addr] →
          read_resource resolve fetch url =
            Except.ok
              [{ content := [("alias", (fetch addr).alias_), ("address", (fetch addr).address.spec)]
                 mime_type := "text/json" }])) := by
  constructor
  · intro h
    unfold read_resource
    rw [if_neg h]
  · intro hs spec hp
    refine ⟨?_, ?_, ?_⟩
    · intro he
      unfold read_resource read_pants_target_resource
      rw [if_pos hs, hp]
      dsimp only
      rw [he]
    · intro hlen
      unfold read_resource read_pants_target_resource
      rw [if_pos hs, hp]
      dsimp only
      cases hres : resolve spec with
      | nil => rw [hres] at hlen; simp at hlen
      | cons a t =>
        cases t with
        | nil => rw [hres] at hlen; simp at hlen
        | cons b t2 => rfl
    · intro addr hres
      unfold read_resource read_pants_target_resource
      rw [if_pos hs, hp]
      dsimp only
      rw [hres]

/-- A resolver matching nothing. -/
def resolve_empty : String → List Address := fun _ => []

/-- A resolver matching two addresses. -/
def resolve_two : String → List Address := fun _ => [⟨"a:a", "a"⟩, ⟨"b:b", "b"⟩]

/-- A resolver matching exactly one address. -/
def resolve_one : String → List Address := fun _ => [⟨"foo:bar", "bar"⟩]

/-- A fetch returning a `python_sources` target at the given address. -/
def fetch_py : Address → Target := fun a => { alias_ := "python_sources", address := a }

/-- Witness for C4: an unknown scheme, and the fixed scheme with zero, two
and one resolved addresses. -/
theorem claim_c4_witness :
    read_resource resolve_empty fetch_py ⟨"http", some "//x"⟩ =
      Except.error ("Unknown resource: " ++ url_to_string ⟨"http", some "//x"⟩) ∧
    read_resource resolve_empty fetch_py ⟨"pants-target", some "//x"⟩ =
      Except.error ("No Pants target found for `" ++ "//x" ++ "`") ∧
    read_resource resolve_two fetch_py ⟨"pants-target", some "//x"⟩ =
      Except.error ("Multiple Pants targets matched spec `" ++ "//x" ++ "`.") ∧
    read_resource resolve_one fetch_py ⟨"pants-target", some "//x"⟩ =
      Except.ok
        [{ content := [("alias", (fetch_py ⟨"foo:bar", "bar"⟩).alias_),
                       ("address", (fetch_py ⟨"foo:bar", "bar"⟩).address.spec)]
           mime_type := "text/json" }] :=
  ⟨(claim_c4 resolve_empty fetch_py ⟨"http", some "//x"⟩).1 (by decide),
   ((claim_c4 resolve_empty fetch_py ⟨"pants-target", some "//x"⟩).2 rfl "//x" rfl).1 rfl,
   ((claim_c4 resolve_two fetch_py ⟨"pants-target", some "//x"⟩).2 rfl "//x" rfl).2.1 (by decide),
   ((claim_c4 resolve_one fetch_py ⟨"pants-target", some "//x"⟩).2 rfl "//x" rfl).2.2
     ⟨"foo:bar", "bar"⟩ rfl⟩

/-- C7: round trip.  When the host resolver sends a target's absolute
address spec to exactly that target's address (the host-engine guarantee for
address specs) and the target fetch returns that target, then the URI the
listing builds for the target, read back, returns exactly that target's
`alias`/`address` metadata as one JSON entry. -/
theorem claim_c7 (resolve : String → List Address) (fetch : Address → Target) (t : Target)
    (hres : resolve (abs_spec t.address.spec) = [t.address])
    (hfetch : fetch t.address = t) :
    ∀ (targets : List Target) (p : Resource × Target),
      p ∈ (get_pants_target_resources targets).zip targets → p.2 = t →
      read_resource resolve fetch p.1.uri =
        Except.ok [{ content := [("alias", t.alias_), ("address", t.address.spec)]
                     mime_type := "text/json" }] := by
  intro targets p hp hpt
  rw [get_resources_zip targets p hp, hpt]
  unfold read_resource read_pants_target_resource
  rw [if_pos rfl]
  simp only [hres, hfetch]

/-- The resolver of the round-trip witness: the absolute spec of `target_rt`
resolves to exactly its address. -/
def resolve_rt : String → List Address :=
  fun s => if s = "//foo:bar" then [⟨"foo:bar", "bar"⟩] else []

/-- The fetch of the round-trip witness. -/
def fetch_rt : Address → Target := fun a => { alias_ := "python_sources", address := a }

/-- Witness for C7: the round trip at `target_rt` in a one-target catalog. -/
theorem claim_c7_witness :
    read_resource resolve_rt fetch_rt (resource_rt, target_rt).1.uri =
      Except.ok [{ content := [("alias", target_rt.alias_), ("address", target_rt.address.spec)]
                   mime_type := "text/json" }] :=
  claim_c7 resolve_rt fetch_rt target_rt (by decide) rfl [target_rt]
    (resource_rt, target_rt) (by decide) rfl


theorem mem_dict_insert {β : Type} {m : List (String × β)} {k : String} {v : β}
    {p : String × β} (hp : p ∈ dict_insert m k v) : p ∈ m ∨ p = (k, v) := by
  unfold dict_insert at hp
  by_cases hk : k ∈ m.map Prod.fst
  · rw [if_pos hk] at hp
    rcases List.mem_map.mp hp with ⟨q, hq, hqe⟩
    by_cases hq1 : q.1 = k
    · right; rw [← hqe, if_pos hq1]
    · left; rw [← hqe, if_neg hq1]; exact hq
  · rw [if_neg hk] at hp
    rcases List.mem_append.mp hp with h | h
    · exact Or.inl h
    · exact Or.inr (by simpa using h)

theorem mem_determine_aux (infos : List GoalHelpInfo) :
    ∀ (xs : List GoalHelpInfo) (m : List (String × GoalHelpInfo)),
      (∀ gi ∈ xs, gi ∈ infos) →
      (∀ p ∈ m, p.1 = p.2.name ∧ p.2.is_implemented = true ∧ p.2 ∈ infos) →
      ∀ p ∈ xs.foldl
          (fun m goal_info =>
            if goal_info.is_implemented then dict_insert m goal_info.name goal_info else m)
          m,
        p.1 = p.2.name ∧ p.2.is_implemented = true ∧ p.2 ∈ infos := by
  intro xs
  induction xs with
  | nil => intro m _ hm p hp; exact hm p hp
  | cons gi xs ih =>
    intro m hxs hm p hp
    simp only [List.foldl_cons] at hp
    cases hi : gi.is_implemented with
    | false =>
      rw [hi] at hp
      simp only [Bool.false_eq_true, if_false] at hp
      exact ih m (fun x hx => hxs x (List.mem_cons_of_mem _ hx)) hm p hp
    | true =>
      rw [hi] at hp
      simp only [if_true] at hp
      refine ih _ (fun x hx => hxs x (List.mem_cons_of_mem _ hx)) ?_ p hp
      intro q hq
      rcases mem_dict_insert hq with h | h
      · exact hm q h
      · rw [h]; exact ⟨rfl, hi, hxs gi (List.mem_cons_self _ _)⟩

theorem mem_determine (infos : List GoalHelpInfo) :
    ∀ p ∈ determine_available_goals infos,
      p.1 = p.2.name ∧ p.2.is_implemented = true ∧ p.2 ∈ infos :=
  mem_determine_aux infos infos [] (fun _ h => h)
    (fun p hp => absurd hp (List.not_mem_nil p))

/-- C8: every entry of the startup goal catalog is flagged implemented by the
host engine's help system, and every listed tool comes from such an
implemented goal — no unimplemented goal surfaces as a tool. -/
theorem claim_c8 (infos : List GoalHelpInfo) :
    (∀ p ∈ determine_available_goals infos, p.2.is_implemented = true) ∧
    (∀ t ∈ setup_tools (determine_available_goals infos),
      ∃ gi, gi ∈ infos ∧ gi.is_implemented = true ∧ t.name = "pants-goal-" ++ gi.name) := by
  constructor
  · intro p hp; exact (mem_determine infos p hp).2.1
  · intro t ht
    rcases List.mem_map.mp ht with ⟨p, hp, hpt⟩
    obtain ⟨h1, h2, h3⟩ := mem_determine infos p hp
    refine ⟨p.2, h3, h2, ?_⟩
    rw [← hpt]
    show "pants-goal-" ++ p.1 = "pants-goal-" ++ p.2.name
    rw [h1]

/-- The help catalog of the C8 witness: one implemented and one
unimplemented goal. -/
def c8_infos : List GoalHelpInfo :=
  [{ name := "test", description := "Run tests.", is_implemented := true },
   { name := "internal", description := "internal", is_implemented := false }]

/-- Witness for C8: the catalog built from `c8_infos` keeps only the
implemented goal, and its one listed tool comes from an implemented goal. -/
theorem claim_c8_witness :
    (("test", ({ name := "test", description := "Run tests.", is_implemented := true } :
        GoalHelpInfo)).2.is_implemented = true) ∧
    ∃ gi, gi ∈ c8_infos ∧ gi.is_implemented = true ∧
      ((setup_tools (determine_available_goals c8_infos)).headI).name =
        "pants-goal-" ++ gi.name :=
  ⟨(claim_c8 c8_infos).1
     ("test", { name := "test", description := "Run tests.", is_implemented := true })
     (by decide),
   (claim_c8 c8_infos).2 ((setup_tools (determine_available_goals c8_infos)).headI)
     (by decide)⟩


theorem map_fst_pairs (names : List String) (g : GoalType) :
    (names.map (fun n => (n, g))).map Prod.fst = names := by
  induction names with
  | nil => rfl
  | cons n t ih => simp [ih]

theorem map_fst_comp_pairs (names : List String) (g : GoalType) :
    names.map (Prod.fst ∘ fun n => (n, g)) = names := by
  induction names with
  | nil => rfl
  | cons n t ih => simp [ih]

theorem insert_claims_spec (g : GoalType) :
    ∀ (names : List String) (m : List (String × GoalType)),
      ((m.map Prod.fst ++ names).Nodup →
        insert_claims g names m = Except.ok (m ++ names.map (fun n => (n, g)))) ∧
      (¬ (m.map Prod.fst ++ names).Nodup → (m.map Prod.fst).Nodup →
        except_is_error (insert_claims g names m) = true) := by
  intro names
  induction names with
  | nil =>
    intro m
    constructor
    · intro _; simp [insert_claims]
    · intro hdup hm; exact absurd (by simpa using hm) hdup
  | cons n rest ih =>
    intro m
    have hkeys : (m ++ [(n, g)]).map Prod.fst = m.map Prod.fst ++ [n] := by simp
    have hassoc : m.map Prod.fst ++ [n] ++ rest = m.map Prod.fst ++ n :: rest := by
      simp
    constructor
    · intro hnd
      have hn : n ∉ m.map Prod.fst := by
        intro hmem
        rw [List.nodup_append] at hnd
        exact hnd.2.2 hmem (List.mem_cons_self _ _)
      unfold insert_claims
      rw [if_neg hn]
      have hok := (ih (m ++ [(n, g)])).1 (by rw [hkeys, hassoc]; exact hnd)
      rw [hok]
      simp
    · intro hdup hm
      by_cases hn : n ∈ m.map Prod.fst
      · unfold insert_claims
        rw [if_pos hn]
        rfl
      · unfold insert_claims
        rw [if_neg hn]
        refine (ih (m ++ [(n, g)])).2 ?_ ?_
        · intro hnd
          exact hdup (by rw [hkeys, hassoc] at hnd; exact hnd)
        · rw [hkeys]
          simp [List.nodup_append, hm, hn]
  
theorem setup_aux_spec :
    ∀ (rules : List Rule) (m : List (String × GoalType)),
      ((m.map Prod.fst ++ all_claimed_names rules).Nodup →
        setup_goal_map_aux rules m = Except.ok (m ++ all_claimed_pairs rules)) ∧
      (¬ (m.map Prod.fst ++ all_claimed_names rules).Nodup → (m.map Prod.fst).Nodup →
        except_is_error (setup_goal_map_aux rules m) = true) := by
  intro rules
  induction rules with
  | nil =>
    intro m
    constructor
    · intro _; simp [setup_goal_map_aux, all_claimed_pairs]
    · intro hdup hm
      exact absurd (by simpa [all_claimed_names] using hm) hdup
  | cons r rest ih =>
    intro m
    cases hr : r.output_type with
    | none =>
      constructor
      · intro hnd
        simp only [setup_goal_map_aux, hr]
        rw [(ih m).1 (by simpa [all_claimed_names, hr] using hnd)]
        simp [all_claimed_pairs, hr]
      · intro hdup hm
        simp only [setup_goal_map_aux, hr]
        refine (ih m).2 ?_ hm
        intro hnd
        exact hdup (by simpa [all_claimed_names, hr] using hnd)
    | some g =>
      have hclaims : all_claimed_names (r :: rest) =
          claimed_goal_names g ++ all_claimed_names rest := by
        simp [all_claimed_names, hr]
      have hpairs : all_claimed_pairs (r :: rest) =
          (claimed_goal_names g).map (fun n => (n, g)) ++ all_claimed_pairs rest := by
        simp [all_claimed_pairs, hr]
      have hkeys2 : (m ++ (claimed_goal_names g).map (fun n => (n, g))).map Prod.fst =
          m.map Prod.fst ++ claimed_goal_names g := by
        rw [List.map_append, map_fst_pairs]
      constructor
      · intro hnd
        rw [hclaims, ← List.append_assoc] at hnd
        have hfresh : (m.map Prod.fst ++ claimed_goal_names g).Nodup :=
          hnd.sublist (List.sublist_append_left _ _)
        simp only [setup_goal_map_aux, hr]
        rw [(insert_claims_spec g (claimed_goal_names g) m).1 hfresh]
        dsimp only
        rw [(ih (m ++ (claimed_goal_names g).map (fun n => (n, g)))).1
          (by rw [hkeys2]; exact hnd)]
        rw [hpairs, List.append_assoc]
      · intro hdup hm
        simp only [setup_goal_map_aux, hr]
        by_cases hfresh : (m.map Prod.fst ++ claimed_goal_names g).Nodup
        · rw [(insert_claims_spec g (claimed_goal_names g) m).1 hfresh]
          dsimp only
          refine (ih (m ++ (claimed_goal_names g).map (fun n => (n, g)))).2 ?_ ?_
          · intro hnd
            rw [hkeys2, List.append_assoc] at hnd
            exact hdup (by rw [hclaims]; exact hnd)
          · rw [hkeys2]; exact hfresh
        · have herr := (insert_claims_spec g (claimed_goal_names g) m).2 hfresh hm
          cases hie : insert_claims g (claimed_goal_names g) m with
          | error e => rfl
          | ok m2 => rw [hie] at herr; simp [except_is_error] at herr

theorem lookup_unique {β : Type} :
    ∀ (l : List (String × β)), (l.map Prod.fst).Nodup →
      ∀ (n : String) (b b' : β), (n, b) ∈ l → (n, b') ∈ l → b = b' := by
  intro l
  induction l with
  | nil => intro _ n b b' h; exact absurd h (List.not_mem_nil _)
  | cons p t ih =>
    intro hnd n b b' hb hb'
    have hp : p.1 ∉ t.map Prod.fst := (List.nodup_cons.mp (by simpa using hnd)).1
    have ht : (t.map Prod.fst).Nodup := (List.nodup_cons.mp (by simpa using hnd)).2
    rcases List.mem_cons.mp hb with h1 | h1
    · rcases List.mem_cons.mp hb' with h2 | h2
      · exact congrArg Prod.snd (h1.trans h2.symm)
      · exfalso
        apply hp
        rw [← h1]
        exact List.mem_map.mpr ⟨(n, b'), h2, rfl⟩
    · rcases List.mem_cons.mp hb' with h2 | h2
      · exfalso
        apply hp
        rw [← h2]
        exact List.mem_map.mpr ⟨(n, b), h1, rfl⟩
      · exact ih ht n b b' h1 h2

theorem mem_all_claimed_pairs :
    ∀ (rules : List Rule) (r : Rule), r ∈ rules → ∀ g, r.output_type = some g →
      ∀ n ∈ claimed_goal_names g, (n, g) ∈ all_claimed_pairs rules := by
  intro rules
  induction rules with
  | nil => intro r hr; exact absurd hr (List.not_mem_nil _)
  | cons r0 rest ih =>
    intro r hr g hg n hn
    rcases List.mem_cons.mp hr with h | h
    · subst h
      simp only [all_claimed_pairs, hg]
      exact List.mem_append.mpr (Or.inl (List.mem_map.mpr ⟨n, hn, rfl⟩))
    · simp only [all_claimed_pairs]
      exact List.mem_append.mpr (Or.inr (ih r h g hg n hn))

theorem keys_all_claimed_pairs (rules : List Rule) :
    (all_claimed_pairs rules).map Prod.fst = all_claimed_names rules := by
  induction rules with
  | nil => rfl
  | cons r rest ih =>
    cases hr : r.output_type with
    | none => simp [all_claimed_pairs, all_claimed_names, hr, ih]
    | some g =>
      simp [all_claimed_pairs, all_claimed_names, hr, ih, map_fst_pairs, map_fst_comp_pairs]

/-- C5: building the goal dispatch table raises whenever the names claimed
across the scan (primary names and truthy deprecated aliases) contain a
duplicate; when it returns a map, each claimed name of each goal-shaped rule
output type is mapped to that type, and no name maps to two types. -/
theorem claim_c5 (rules : List Rule) :
    (¬ (all_claimed_names rules).Nodup →
      except_is_error (setup_goal_map_from_rules rules) = true) ∧
    (∀ m, setup_goal_map_from_rules rules = Except.ok m →
      (∀ r ∈ rules, ∀ g, r.output_type = some g →
        ∀ n ∈ claimed_goal_names g, (n, g) ∈ m) ∧
      (∀ (n : String) (g g' : GoalType), (n, g) ∈ m → (n, g') ∈ m → g = g')) := by
  constructor
  · intro hdup
    exact (setup_aux_spec rules []).2 (by simpa using hdup) (by simp)
  · intro m hok
    by_cases hnd : (all_claimed_names rules).Nodup
    · have h1 := (setup_aux_spec rules []).1 (by simpa using hnd)
      rw [setup_goal_map_from_rules] at hok
      rw [h1] at hok
      have hm : m = all_claimed_pairs rules := by
        injection hok with h
        simp at h
        exact h.symm
      constructor
      · intro r hr g hg n hn
        rw [hm]
        exact mem_all_claimed_pairs rules r hr g hg n hn
      · intro n g g' h h'
        refine lookup_unique m ?_ n g g' h h'
        rw [hm, keys_all_claimed_pairs]
        exact hnd
    · exfalso
      have herr := (setup_aux_spec rules []).2 (by simpa using hnd) (by simp)
      rw [setup_goal_map_from_rules] at hok
      rw [hok] at herr
      simp [except_is_error] at herr

/-- Witness for C5: two rules claiming the goal name `test` abort startup;
a single rule claiming `lint` yields the map with exactly that entry. -/
theorem claim_c5_witness :
    except_is_error
        (setup_goal_map_from_rules [⟨some ⟨"test", none⟩⟩, ⟨some ⟨"test", none⟩⟩]) = true ∧
    ("lint", ({ name := "lint", deprecated_options_scope := none } : GoalType)) ∈
      [("lint", ({ name := "lint", deprecated_options_scope := none } : GoalType))] :=
  ⟨(claim_c5 [⟨some ⟨"test", none⟩⟩, ⟨some ⟨"test", none⟩⟩]).1 (by decide),
   ((claim_c5 [⟨some ⟨"lint", none⟩⟩]).2
       [("lint", { name := "lint", deprecated_options_scope := none })] rfl).1
     ⟨some ⟨"lint", none⟩⟩ (by decide) ⟨"lint", none⟩ rfl "lint" (by decide)⟩


theorem map_fst_replace {β : Type} (m : List (String × β)) (k : String) (v : β) :
    (m.map (fun p => if p.1 = k then (k, v) else p)).map Prod.fst = m.map Prod.fst := by
  induction m with
  | nil => rfl
  | cons p t ih =>
    by_cases h : p.1 = k
    · simp [h, ih]
    · simp [h, ih]

theorem keys_dict_insert {β : Type} (m : List (String × β)) (k : String) (v : β) :
    (dict_insert m k v).map Prod.fst =
      if k ∈ m.map Prod.fst then m.map Prod.fst else m.map Prod.fst ++ [k] := by
  unfold dict_insert
  by_cases hk : k ∈ m.map Prod.fst
  · rw [if_pos hk, if_pos hk, map_fst_replace]
  · rw [if_neg hk, if_neg hk, List.map_append]
    rfl

theorem keys_determine_nodup (infos : List GoalHelpInfo) :
    ((determine_available_goals infos).map Prod.fst).Nodup := by
  suffices h : ∀ (xs : List GoalHelpInfo) (m : List (String × GoalHelpInfo)),
      (m.map Prod.fst).Nodup →
      ((xs.foldl
          (fun m goal_info =>
            if goal_info.is_implemented then dict_insert m goal_info.name goal_info else m)
          m).map Prod.fst).Nodup by
    exact h infos [] (by simp)
  intro xs
  induction xs with
  | nil => intro m hm; simpa using hm
  | cons gi t ih =>
    intro m hm
    simp only [List.foldl_cons]
    cases hi : gi.is_implemented with
    | false => simpa [hi] using ih m hm
    | true =>
      rw [if_pos rfl]
      refine ih _ ?_
      rw [keys_dict_insert]
      by_cases hk : gi.name ∈ m.map Prod.fst
      · rw [if_pos hk]; exact hm
      · rw [if_neg hk]
        simp [List.nodup_append, hm, hk]

theorem filter_eq_nil_not_mem (t : List String) (a : String) (ha : a ∉ t) :
    t.filter (fun k => decide (k = a)) = [] := by
  induction t with
  | nil => rfl
  | cons x xs ih =>
    have hx : ¬ x = a := fun e => ha (by rw [e]; exact List.mem_cons_self _ _)
    have hxs : a ∉ xs := fun m => ha (List.mem_cons_of_mem _ m)
    simp [List.filter_cons, hx, ih hxs]

theorem filter_count_nodup (l : List String) (G : String) (hnd : l.Nodup) (hG : G ∈ l) :
    (l.filter (fun k => decide (k = G))).length = 1 := by
  induction l with
  | nil => exact absurd hG (List.not_mem_nil _)
  | cons a t ih =>
    obtain ⟨ha, ht⟩ := List.nodup_cons.mp hnd
    by_cases h : a = G
    · subst h
      rw [filter_eq_nil_not_mem t a ha] at *
      simp [List.filter_cons, filter_eq_nil_not_mem t a ha]
    · have hGt : G ∈ t := by
        rcases List.mem_cons.mp hG with h1 | h1
        · exact absurd h1.symm h
        · exact h1
      simp [List.filter_cons, h, ih ht hGt]

theorem filter_name_count (m : List (String × GoalHelpInfo)) (G : String) :
    ((setup_tools m).filter (fun t => decide (t.name = "pants-goal-" ++ G))).length =
    ((m.map Prod.fst).filter (fun k => decide (k = G))).length := by
  induction m with
  | nil => rfl
  | cons p t ih =>
    have hdec : (decide ((mk_tool p).name = "pants-goal-" ++ G)) = decide (p.1 = G) := by
      apply decide_eq_decide.mpr
      constructor
      · intro h; exact str_append_left_cancel h
      · intro h
        show "pants-goal-" ++ p.1 = "pants-goal-" ++ G
        rw [h]
    simp only [setup_tools, List.map_cons, List.filter_cons, hdec] at *
    by_cases h : p.1 = G
    · simp [h, ih]
    · simp [h, ih]

/-- C1 fails as stated: with the one-goal catalog `test`, the listed tool's
input schema requires `pants_target_address`, not `target_address`, and the
tool's name is `pants-goal-test`, which does not begin with `goal-` as every
name of the shape `goal-<scope>-test` does. -/
theorem claim_c1_counterexample :
    (setup_tools [("test", { name := "test", description := "d", is_implemented := true })]).map
        Tool.name = ["pants-goal-test"] ∧
    "pants-goal-test".data.take 5 ≠ "goal-".data ∧
    (setup_tools [("test", { name := "test", description := "d", is_implemented := true })]).map
        (fun t => t.inputSchema.required) = [["pants_target_address"]] ∧
    "pants_target_address" ≠ "target_address" :=
  ⟨rfl, by decide, rfl, by decide⟩

/-- C1 as amended: for every implemented goal G of the catalog, exactly one
tool named `pants-goal-G` is listed; every listed tool's input schema has the
single required string field `pants_target_address`, and its output schema's
required fields are exactly `exit_code` (integer), `stdout` (string) and
`stderr` (string). -/
theorem claim_c1 (infos : List GoalHelpInfo) (G : String)
    (hG : G ∈ (determine_available_goals infos).map Prod.fst) :
    ((setup_tools (determine_available_goals infos)).filter
        (fun t => decide (t.name = "pants-goal-" ++ G))).length = 1 ∧
    ∀ t ∈ setup_tools (determine_available_goals infos),
      t.inputSchema.required = ["pants_target_address"] ∧
      t.inputSchema.properties.map Prod.fst = ["pants_target_address"] ∧
      (lookup_assoc t.inputSchema.properties "pants_target_address").map PropSchema.type =
        some "string" ∧
      t.outputSchema.required = ["exit_code", "stdout", "stderr"] ∧
      (lookup_assoc t.outputSchema.properties "exit_code").map PropSchema.type =
        some "integer" ∧
      (lookup_assoc t.outputSchema.properties "stdout").map PropSchema.type =
        some "string" ∧
      (lookup_assoc t.outputSchema.properties "stderr").map PropSchema.type =
        some "string" := by
  constructor
  · rw [filter_name_count]
    exact filter_count_nodup _ G (keys_determine_nodup infos) hG
  · intro t ht
    rcases List.mem_map.mp ht with ⟨p, hp, hpt⟩
    rw [← hpt]
    exact ⟨rfl, rfl, rfl, rfl, rfl, rfl, rfl⟩

/-- Witness for C1 as amended, at a one-goal catalog. -/
theorem claim_c1_witness :
    ((setup_tools (determine_available_goals
        [{ name := "test", description := "d", is_implemented := true }])).filter
      (fun t => decide (t.name = "pants-goal-" ++ "test"))).length = 1 :=
  (claim_c1 [{ name := "test", description := "d", is_implemented := true }] "test"
    (by decide)).1

end PantsMcp
